import Mathlib

/-!
# Labeling Function Factory & Evaluation Engine — verification

A shallow embedding of the weak-supervision labeling engine used in the
workshop notebook `Workshop_2_Writing_Labeling_Functions.ipynb`: ternary
labeling functions over spouse candidates, declarative matcher factories,
composite labeling functions, the label-matrix builder and the
scorer/error-bucket analyzer.  Concrete labeling functions
(`LF_marriage`, `LF_too_far_apart`, `LF_marriage_and_too_far_apart`, …)
are translated from the notebook cells; the library components the
notebook imports (`lib.lf_factories`, `lib.scoring`,
`snorkel.annotations`) are not part of the source tree and are modelled
from the specification, as marked in their doc comments.
-/

namespace Snorkel

/-- A candidate of the `Spouse` type: two person mentions (spans) in one
sentence context.  `tokens` is the (lower-cased) token sequence of the
parent context; each span is a `(start, stop)` pair of token offsets with
`stop` exclusive; `person1`/`person2` are the normalized entity values of
the two spans (used by the knowledge-base matcher). -/
structure Candidate where
  id : Nat
  tokens : List String
  span1 : Nat × Nat
  span2 : Nat × Nat
  person1 : String
  person2 : String
  deriving DecidableEq, Repr

/-- Tokens with index in the half-open interval `[a, b)`. -/
def tokenSlice (xs : List String) (a b : Nat) : List String :=
  (xs.take b).drop a

/-- Modelled from the spec: `snorkel.lf_helpers.get_between_tokens` — the
tokens strictly between the end of the earlier span and the start of the
later span (spec §4.1, `between` scope).  Overlapping spans yield the
empty scope. -/
def betweenTokens (c : Candidate) : List String :=
  if c.span1.2 ≤ c.span2.1 then tokenSlice c.tokens c.span1.2 c.span2.1
  else if c.span2.2 ≤ c.span1.1 then tokenSlice c.tokens c.span2.2 c.span1.1
  else []

/-- Modelled from the spec: `get_left_tokens` — the `w` tokens immediately
preceding the first span, clipped at the context boundary (spec §4.1). -/
def leftTokens (w : Nat) (c : Candidate) : List String :=
  let a := min c.span1.1 c.span2.1
  (c.tokens.take a).drop (a - w)

/-- Modelled from the spec: `get_right_tokens` — the `w` tokens immediately
following the last span, clipped at the context boundary (spec §4.1). -/
def rightTokens (w : Nat) (c : Candidate) : List String :=
  let b := max c.span1.2 c.span2.2
  (c.tokens.drop b).take w

/-- The four scope names recognized by the factories (spec §4.3 `search`). -/
inductive Scope where
  | left
  | right
  | between
  | sentence
  deriving DecidableEq, Repr

/-- Modelled from the spec: the Span/Context Extractor (spec §4.1) — the
token sequence of the named scope.  The window `w` is meaningful only for
`left`/`right`. -/
def extractScope (s : Scope) (w : Nat) (c : Candidate) : List String :=
  match s with
  | .left => leftTokens w c
  | .right => rightTokens w c
  | .between => betweenTokens c
  | .sentence => c.tokens

/-- Modelled from the spec: the term-matcher labeling function emitted by
`MatchTerms(...).lf()` — vote `label` iff the scope's token set intersects
the fixed term set, else ABSTAIN (spec §4.2, §4.3). -/
def matchTermsLF (terms : List String) (label : Int) (s : Scope) (w : Nat)
    (c : Candidate) : Int :=
  if (extractScope s w c).any (fun t => terms.contains t) then label else 0

/-- Notebook cell: `LF_marriage = MatchTerms(name='marriage',
terms={'husband','wife'}, label=1, search='between').lf()`. -/
def LF_marriage (c : Candidate) : Int :=
  matchTermsLF ["husband", "wife"] 1 .between 1 c

/-- Notebook cell: `LF_other_relationship = MatchTerms(
name='other_relationship', terms={'boyfriend','girlfriend'}, label=-1,
search='left', window=1).lf()`. -/
def LF_other_relationship (c : Candidate) : Int :=
  matchTermsLF ["boyfriend", "girlfriend"] (-1) .left 1 c

/-- `occursIn p s` holds iff `p` occurs as a contiguous subsequence of `s`. -/
def occursIn (p : List Char) : List Char → Bool
  | [] => p.isEmpty
  | a :: rest => p.isPrefixOf (a :: rest) || occursIn p rest

/-- Modelled from the spec: the semantics of the single regex pattern
`' ex[- ](husband|wife)'` used by `LF_exes` — `re.search` of this pattern
succeeds on a text exactly when one of its four literal expansions occurs
as a substring. -/
def exesRegexMatch (s : String) : Bool :=
  [" ex-husband", " ex husband", " ex-wife", " ex wife"].any
    (fun p => occursIn p.toList s.toList)

/-- Notebook cell: `LF_exes = MatchRegex(name='exes',
rgxs={' ex[- ](husband|wife)'}, label=-1, search='between').lf()`.
The regex matcher tests the pattern against the joined text of the scope
(spec §4.2). -/
def LF_exes (c : Candidate) : Int :=
  if exesRegexMatch (String.intercalate " " (betweenTokens c)) then -1 else 0

/-- Modelled from the spec: the knowledge-base matcher (spec §4.2) — vote
TRUE iff the normalized entity pair of the candidate's spans is in the
fixed relation `kb`; the `symmetric` flag is the explicit symmetry policy
(spec §9, open question). -/
def dsLF (kb : List (String × String)) (symmetric : Bool) (c : Candidate) : Int :=
  if kb.contains (c.person1, c.person2) ||
      (symmetric && kb.contains (c.person2, c.person1)) then 1 else 0

/-- Notebook cell: `LF_distant_supervision = DistantSupervision("dbpedia",
kb=known_spouses).lf()`, parameterized here by the knowledge base and the
symmetry policy (the concrete `known_spouses` table is external data). -/
def LF_distant_supervision (kb : List (String × String)) (symmetric : Bool)
    (c : Candidate) : Int :=
  dsLF kb symmetric c

/-- Notebook cell:
`def LF_too_far_apart(c): return -1 if len(list(get_between_tokens(c))) > 50 else 0`. -/
def LF_too_far_apart (c : Candidate) : Int :=
  if (betweenTokens c).length > 50 then -1 else 0

/-- Notebook cell:
`def LF_marriage_and_too_far_apart(c): return 1 if LF_too_far_apart(c) != -1 and LF_marriage(c) == 1 else 0`. -/
def LF_marriage_and_too_far_apart (c : Candidate) : Int :=
  if LF_too_far_apart c ≠ -1 ∧ LF_marriage c = 1 then 1 else 0

/-- Notebook cell:
`LF_marriage_and_not_same_person = lambda c: LF_too_far_apart(c) != -1 and LF_marriage(c)`.
Python's short-circuit `and` returns `False` when the left operand is
falsy and returns the right operand otherwise; Python's `False` is the
integer `0`, so the embedding returns `0` in the falsy branch. -/
def LF_marriage_and_not_same_person (c : Candidate) : Int :=
  if LF_too_far_apart c ≠ -1 then LF_marriage c else 0

/-- The ternary vote set `{TRUE = +1, FALSE = -1, ABSTAIN = 0}` (spec §3). -/
def ternary (x : Int) : Prop :=
  x = -1 ∨ x = 0 ∨ x = 1

/-! ## Label-matrix builder (spec §4.5)

Modelled from the spec: `LabelAnnotator(lfs=LFs)` and
`labeler.apply(split, parallelism)` are library code absent from the
source tree.  A labeling function may raise while evaluating a candidate
(`Except.error`); the builder is fail-soft. -/

/-- A named labeling function as supplied to the matrix builder; `run`
either returns a vote or raises (spec §3 LabelingFunction, §4.5). -/
structure NamedLF where
  name : String
  run : Candidate → Except String Int

/-- One recorded evaluation failure: candidate id, LF name, underlying
cause (spec §7 `EvaluationError`). -/
structure EvalFailure where
  candId : Nat
  lfName : String
  cause : String
  deriving DecidableEq, Repr

/-- Modelled from the spec: evaluating one cell — a raising LF contributes
ABSTAIN to the cell and one recorded failure (spec §4.5, §7). -/
def applyCell (lf : NamedLF) (c : Candidate) : Int × List EvalFailure :=
  match lf.run c with
  | .ok v => (v, [])
  | .error e => (0, [⟨c.id, lf.name, e⟩])

/-- The row of votes of one candidate, in LF order. -/
def applyRow (lfs : List NamedLF) (c : Candidate) : List Int :=
  lfs.map (fun lf => (applyCell lf c).1)

/-- The failures recorded while evaluating one candidate, in LF order. -/
def rowFailures (lfs : List NamedLF) (c : Candidate) : List EvalFailure :=
  lfs.flatMap (fun lf => (applyCell lf c).2)

/-- Modelled from the spec: the label-matrix builder `labeler.apply` at
parallelism 1 — rows in candidate order, columns in LF order, plus the
collected failure report (spec §4.5). -/
def labelMatrix (lfs : List NamedLF) (cands : List Candidate) :
    List (List Int) × List EvalFailure :=
  (cands.map (applyRow lfs), cands.flatMap (rowFailures lfs))

/-- Modelled from the spec: the parallel builder — candidates are
partitioned into per-worker chunks, each worker builds its sub-matrix and
local failure list, and the results are reassembled in the original
candidate order (spec §5). -/
def labelMatrixPar (lfs : List NamedLF) (chunks : List (List Candidate)) :
    List (List Int) × List EvalFailure :=
  ((chunks.map (fun ch => (labelMatrix lfs ch).1)).flatten,
   (chunks.map (fun ch => (labelMatrix lfs ch).2)).flatten)

/-- Entry `(i, j)` of a matrix given as a list of rows. -/
def entry? (m : List (List Int)) (i j : Nat) : Option Int :=
  (m[i]?).bind (fun row => row[j]?)

/-! ## Scorer / error-bucket analyzer (spec §4.6)

Modelled from the spec: `error_analysis` and `score` come from
`lib.scoring`, absent from the source tree.  Gold labels are aligned with
candidates as pairs; `none` means no ground truth for that candidate
(such candidates are excluded from scoring). -/

/-- Modelled from the spec: `error_analysis` — partition the gold-covered
candidates into the TP/FP/TN/FN buckets by comparing each non-abstain
vote with the gold label; an abstaining vote goes into no bucket
(spec §4.6). -/
def error_analysis (lf : Candidate → Int) :
    List (Candidate × Option Int) →
    List Candidate × List Candidate × List Candidate × List Candidate
  | [] => ([], [], [], [])
  | (c, g) :: rest =>
    let (tp, fp, tn, fn) := error_analysis lf rest
    if lf c = 1 ∧ g = some 1 then (c :: tp, fp, tn, fn)
    else if lf c = 1 ∧ g = some (-1) then (tp, c :: fp, tn, fn)
    else if lf c = -1 ∧ g = some (-1) then (tp, fp, c :: tn, fn)
    else if lf c = -1 ∧ g = some 1 then (tp, fp, tn, c :: fn)
    else (tp, fp, tn, fn)

/-- Modelled from the spec: precision = tp/(tp+fp), or an explicit
undefined marker when the denominator is 0 (spec §4.6). -/
def precisionOf (tp fp : Nat) : Option ℚ :=
  if tp + fp = 0 then none else some ((tp : ℚ) / ((tp : ℚ) + (fp : ℚ)))

/-- Modelled from the spec: recall = tp/(tp+fn), or an explicit undefined
marker when the denominator is 0 (spec §4.6). -/
def recallOf (tp fn : Nat) : Option ℚ :=
  if tp + fn = 0 then none else some ((tp : ℚ) / ((tp : ℚ) + (fn : ℚ)))

/-- Modelled from the spec: F1, the harmonic mean of precision and
recall, undefined whenever either input is undefined or their sum is 0
(spec §4.6). -/
def f1Of (p r : Option ℚ) : Option ℚ :=
  match p, r with
  | some p, some r => if p + r = 0 then none else some (2 * p * r / (p + r))
  | _, _ => none

/-! ## Factory construction and validation (spec §4.3, §7)

Modelled from the spec: the factory classes `MatchTerms`, `MatchRegex`
and `DistantSupervision` come from `lib.lf_factories`, absent from the
source tree.  Construction validates the configuration and fails fast
with a `ConfigurationError`. -/

/-- The construction-time error taxonomy (spec §7 `ConfigurationError`). -/
inductive ConfigurationError where
  | badSearch (s : String)
  | nonPositiveWindow (w : Int)
  | emptySet
  | badLabel (l : Int)
  | badSpanCount (n : Nat)
  deriving DecidableEq, Repr

/-- Parse a `search` string into a scope name. -/
def parseScope (s : String) : Option Scope :=
  if s = "left" then some .left
  else if s = "right" then some .right
  else if s = "between" then some .between
  else if s = "sentence" then some .sentence
  else none

/-- A validated term-matcher factory (spec §4.3); `window` is the
validated positive window, defaulted to 1 where not meaningful. -/
structure MatchTermsFactory where
  name : String
  terms : List String
  label : Int
  scope : Scope
  window : Nat
  deriving Repr

/-- The labeling function emitted by a validated term-matcher factory
(`.lf()`, spec §4.3). -/
def MatchTermsFactory.lf (f : MatchTermsFactory) (c : Candidate) : Int :=
  matchTermsLF f.terms f.label f.scope f.window c

/-- Modelled from the spec: validation shared by the scoped factories —
the `search` value must name a scope, a supplied `window` must be
positive and is required for `left`/`right`, the `label` must be TRUE or
FALSE, and a `between` scope demands a candidate type with exactly two
spans (spec §4.3, §4.1, §7). -/
def validateScoped (label : Int) (search : String) (window : Option Int)
    (arity : Nat) : Except ConfigurationError (Scope × Nat) :=
  match parseScope search with
  | none => .error (.badSearch search)
  | some sc =>
    if label ≠ 1 ∧ label ≠ -1 then .error (.badLabel label)
    else match window with
      | some w =>
        if w ≤ 0 then .error (.nonPositiveWindow w)
        else if sc = .between ∧ arity ≠ 2 then .error (.badSpanCount arity)
        else .ok (sc, w.toNat)
      | none =>
        if sc = .left ∨ sc = .right then .error (.nonPositiveWindow 0)
        else if sc = .between ∧ arity ≠ 2 then .error (.badSpanCount arity)
        else .ok (sc, 1)

/-- Modelled from the spec: the `MatchTerms` constructor — fail-fast
validation of the configuration, then a frozen factory (spec §4.3). -/
def mkMatchTerms (name : String) (terms : List String) (label : Int)
    (search : String) (window : Option Int) (arity : Nat) :
    Except ConfigurationError MatchTermsFactory :=
  if terms = [] then .error .emptySet
  else (validateScoped label search window arity).map
    (fun p => ⟨name, terms, label, p.1, p.2⟩)

/-- A validated regex-matcher factory (spec §4.3); the pattern strings are
stored as configuration, their compiled semantics being outside this
model. -/
structure MatchRegexFactory where
  name : String
  rgxs : List String
  label : Int
  scope : Scope
  window : Nat
  deriving Repr

/-- Modelled from the spec: the `MatchRegex` constructor — the same
fail-fast validation over a pattern set (spec §4.3). -/
def mkMatchRegex (name : String) (rgxs : List String) (label : Int)
    (search : String) (window : Option Int) (arity : Nat) :
    Except ConfigurationError MatchRegexFactory :=
  if rgxs = [] then .error .emptySet
  else (validateScoped label search window arity).map
    (fun p => ⟨name, rgxs, label, p.1, p.2⟩)

/-- A validated knowledge-base factory (spec §4.2 knowledge-base matcher). -/
structure DistantSupervisionFactory where
  name : String
  kb : List (String × String)
  symmetric : Bool
  deriving Repr

/-- The labeling function emitted by a validated knowledge-base factory. -/
def DistantSupervisionFactory.lf (f : DistantSupervisionFactory)
    (c : Candidate) : Int :=
  dsLF f.kb f.symmetric c

/-- Modelled from the spec: the `DistantSupervision` constructor — an
empty knowledge base is a `ConfigurationError` (spec §4.3, §7). -/
def mkDistantSupervision (name : String) (kb : List (String × String))
    (symmetric : Bool) : Except ConfigurationError DistantSupervisionFactory :=
  if kb = [] then .error .emptySet
  else .ok ⟨name, kb, symmetric⟩

/-! ## Concrete candidates used in scenario checks -/

/-- A candidate whose `between` scope is `["his", "wife"]`. -/
def candHisWife : Candidate :=
  ⟨0, ["mary", "his", "wife", "john"], (0, 1), (3, 4), "mary", "john"⟩

/-- A candidate whose `between` scope is `["colleague"]`. -/
def candColleague : Candidate :=
  ⟨1, ["mary", "colleague", "john"], (0, 1), (2, 3), "mary", "john"⟩

/-- A matrix-builder LF wrapping `LF_marriage`; it never raises. -/
def demoLF_marriage : NamedLF :=
  ⟨"marriage", fun c => .ok (LF_marriage c)⟩

/-- A matrix-builder LF that raises on candidate 0 and votes `1`
elsewhere, used to exercise the fail-soft path. -/
def demoLF_broken : NamedLF :=
  ⟨"broken", fun c => if c.id = 0 then .error "boom" else .ok 1⟩

/-! ## Helper lemmas -/

/-- `LF_marriage` is unipolar positive: it votes `1` or abstains. -/
theorem LF_marriage_eq_zero_or_one (c : Candidate) :
    LF_marriage c = 0 ∨ LF_marriage c = 1 := by
  unfold LF_marriage matchTermsLF
  split <;> simp

/-- The builder distributes over appending candidate lists. -/
theorem labelMatrix_append (lfs : List NamedLF) (a b : List Candidate) :
    labelMatrix lfs (a ++ b) =
      ((labelMatrix lfs a).1 ++ (labelMatrix lfs b).1,
       (labelMatrix lfs a).2 ++ (labelMatrix lfs b).2) := by
  simp [labelMatrix]

/-- The chunked (parallel) builder agrees with the sequential builder on
the flattened candidate list. -/
theorem labelMatrixPar_eq_flatten (lfs : List NamedLF)
    (chunks : List (List Candidate)) :
    labelMatrixPar lfs chunks = labelMatrix lfs chunks.flatten := by
  induction chunks with
  | nil => rfl
  | cons ch rest ih =>
    have h1 : (labelMatrixPar lfs rest).1 = (labelMatrix lfs rest.flatten).1 := by
      rw [ih]
    have h2 : (labelMatrixPar lfs rest).2 = (labelMatrix lfs rest.flatten).2 := by
      rw [ih]
    simp only [labelMatrixPar, List.map_cons, List.flatten_cons,
      labelMatrix_append lfs ch rest.flatten]
    simp only [labelMatrixPar] at h1 h2
    rw [h1, h2]

/-- The number of rows equals the number of candidates. -/
theorem labelMatrix_length (lfs : List NamedLF) (cands : List Candidate) :
    (labelMatrix lfs cands).1.length = cands.length := by
  simp [labelMatrix]

/-- Every row has one column per LF. -/
theorem labelMatrix_row_length (lfs : List NamedLF) (cands : List Candidate) :
    ∀ row ∈ (labelMatrix lfs cands).1, row.length = lfs.length := by
  intro row hrow
  simp only [labelMatrix, List.mem_map] at hrow
  obtain ⟨c, _, rfl⟩ := hrow
  simp [applyRow]

/-- Cell `(i, j)` of the built matrix is the vote of the `j`-th LF on the
`i`-th candidate. -/
theorem labelMatrix_entry (lfs : List NamedLF) (cands : List Candidate)
    (i j : Nat) (lf : NamedLF) (c : Candidate)
    (hj : lfs[j]? = some lf) (hi : cands[i]? = some c) :
    entry? (labelMatrix lfs cands).1 i j = some (applyCell lf c).1 := by
  simp [entry?, labelMatrix, List.getElem?_map, hi, applyRow, hj]

/-- A raised evaluation error is recorded in the failure report. -/
theorem labelMatrix_failure_mem (lfs : List NamedLF) (cands : List Candidate)
    (lf : NamedLF) (c : Candidate) (e : String)
    (hlf : lf ∈ lfs) (hc : c ∈ cands) (he : lf.run c = .error e) :
    (⟨c.id, lf.name, e⟩ : EvalFailure) ∈ (labelMatrix lfs cands).2 := by
  simp only [labelMatrix, List.mem_flatMap]
  refine ⟨c, hc, ?_⟩
  simp only [rowFailures, List.mem_flatMap]
  exact ⟨lf, hlf, by simp [applyCell, he]⟩

/-! ## Claim theorems -/

/-- C1.  Ternary closure: every LF of the applied set — `LF_marriage`,
`LF_other_relationship`, `LF_exes`, `LF_distant_supervision` (any
knowledge base and symmetry policy), `LF_too_far_apart`,
`LF_marriage_and_too_far_apart` — and the composite lambda
`LF_marriage_and_not_same_person` return one of `{-1, 0, +1}` on every
candidate; being total Lean functions, they never raise. -/
theorem lf_ternary_closure (kb : List (String × String)) (sym : Bool)
    (c : Candidate) :
    ternary (LF_marriage c) ∧ ternary (LF_other_relationship c) ∧
    ternary (LF_exes c) ∧ ternary (LF_distant_supervision kb sym c) ∧
    ternary (LF_too_far_apart c) ∧
    ternary (LF_marriage_and_too_far_apart c) ∧
    ternary (LF_marriage_and_not_same_person c) := by
  refine ⟨?_, ?_, ?_, ?_, ?_, ?_, ?_⟩
  · unfold LF_marriage matchTermsLF ternary; split <;> simp
  · unfold LF_other_relationship matchTermsLF ternary; split <;> simp
  · unfold LF_exes ternary; split <;> simp
  · unfold LF_distant_supervision dsLF ternary; split <;> simp
  · unfold LF_too_far_apart ternary; split <;> simp
  · unfold LF_marriage_and_too_far_apart ternary; split <;> simp
  · unfold LF_marriage_and_not_same_person ternary
    rcases LF_marriage_eq_zero_or_one c with h | h <;> split <;> simp [h]

/-- C2.  Guarded-vote composition: `LF_marriage_and_too_far_apart` votes
`+1` exactly when `LF_marriage` votes `+1` and `LF_too_far_apart` does
not vote `-1`, and abstains otherwise; pointwise this is the boolean
composition `AND(A-is-TRUE, NOT(B-is-FALSE))` of the two constituent
predicates. -/
theorem guarded_vote_composition (c : Candidate) :
    (LF_marriage_and_too_far_apart c = 1 ↔
      LF_marriage c = 1 ∧ LF_too_far_apart c ≠ -1) ∧
    LF_marriage_and_too_far_apart c =
      (if LF_marriage c = 1 ∧ LF_too_far_apart c ≠ -1 then 1 else 0) ∧
    LF_marriage_and_too_far_apart c =
      (if (LF_marriage c == 1) && !(LF_too_far_apart c == -1) then 1 else 0) := by
  unfold LF_marriage_and_too_far_apart
  refine ⟨?_, ?_, ?_⟩ <;>
    by_cases h1 : LF_marriage c = 1 <;>
    by_cases h2 : LF_too_far_apart c = -1 <;>
    simp_all

/-- C9.  The lambda `LF_marriage_and_not_same_person` (with Python's
`False` identified with `0`) and the function
`LF_marriage_and_too_far_apart` are extensionally equal, both voting `1`
exactly when `LF_too_far_apart c ≠ -1` and `LF_marriage c = 1` and `0`
otherwise. -/
theorem composite_formulations_equal (c : Candidate) :
    LF_marriage_and_not_same_person c = LF_marriage_and_too_far_apart c ∧
    (LF_marriage_and_not_same_person c = 1 ↔
      LF_too_far_apart c ≠ -1 ∧ LF_marriage c = 1) := by
  unfold LF_marriage_and_not_same_person LF_marriage_and_too_far_apart
  rcases LF_marriage_eq_zero_or_one c with h | h <;>
    by_cases h2 : LF_too_far_apart c = -1 <;>
    simp_all

/-- C10.  `LF_too_far_apart` is unipolar negative: it votes `-1` exactly
when more than 50 tokens lie strictly between the candidate's two spans,
abstains otherwise, and never votes `+1`; it is a total function of the
candidate. -/
theorem too_far_apart_unipolar (c : Candidate) :
    (LF_too_far_apart c = -1 ↔ 50 < (betweenTokens c).length) ∧
    (LF_too_far_apart c = 0 ↔ (betweenTokens c).length ≤ 50) ∧
    LF_too_far_apart c ≠ 1 := by
  unfold LF_too_far_apart
  split <;> rename_i h <;> simp_all

/-- C3.  Term-matcher semantics: a term matcher fires with its label
exactly when some token of the selected scope lies in the term set and
abstains otherwise; in particular `LF_marriage` (terms
`{"husband","wife"}`, scope `between`, label `+1`) votes `+1` on a
candidate whose between-tokens are `["his","wife"]` and `0` on one whose
between-tokens are `["colleague"]`. -/
theorem term_matcher_semantics (terms : List String) (label : Int)
    (s : Scope) (w : Nat) (c : Candidate) :
    matchTermsLF terms label s w c =
      (if ∃ t ∈ extractScope s w c, t ∈ terms then label else 0) ∧
    betweenTokens candHisWife = ["his", "wife"] ∧
    LF_marriage candHisWife = 1 ∧
    betweenTokens candColleague = ["colleague"] ∧
    LF_marriage candColleague = 0 := by
  refine ⟨?_, by rfl, by rfl, by rfl, by rfl⟩
  unfold matchTermsLF
  by_cases h : ∃ t ∈ extractScope s w c, t ∈ terms <;>
    simp [h, List.any_eq_true]

/-- C4.  Determinism and idempotence of matrix building: building from
any partition of the candidate list into worker chunks yields the very
matrix (and failure report) of the sequential build, so every parallelism
degree produces bit-identical results; the matrix has exactly one row per
candidate in candidate order and one column per LF in LF order. -/
theorem apply_deterministic (lfs : List NamedLF) (cands : List Candidate)
    (chunks : List (List Candidate)) (h : chunks.flatten = cands) :
    labelMatrixPar lfs chunks = labelMatrix lfs cands ∧
    (labelMatrix lfs cands).1.length = cands.length ∧
    (∀ row ∈ (labelMatrix lfs cands).1, row.length = lfs.length) ∧
    (∀ i j lf c, lfs[j]? = some lf → cands[i]? = some c →
      entry? (labelMatrix lfs cands).1 i j = some (applyCell lf c).1) := by
  refine ⟨?_, labelMatrix_length lfs cands, labelMatrix_row_length lfs cands,
    fun i j lf c hj hi => labelMatrix_entry lfs cands i j lf c hj hi⟩
  rw [labelMatrixPar_eq_flatten, h]

/-- Witness for C4 at a concrete two-chunk partition of two candidates. -/
theorem apply_deterministic_witness :
    labelMatrixPar [demoLF_marriage] [[candHisWife], [candColleague]] =
      labelMatrix [demoLF_marriage] [candHisWife, candColleague] :=
  (apply_deterministic [demoLF_marriage] [candHisWife, candColleague]
    [[candHisWife], [candColleague]] rfl).1

/-- C5.  Fail-soft matrix building: whatever LFs raise, the matrix keeps
its full shape (the build never aborts); a cell whose LF raises is
ABSTAIN (`0`) and the failure is recorded as (candidate id, LF name,
cause) in the report returned alongside the matrix, while a cell whose LF
returns normally holds that vote. -/
theorem apply_fail_soft (lfs : List NamedLF) (cands : List Candidate)
    (i j : Nat) (lf : NamedLF) (c : Candidate)
    (hj : lfs[j]? = some lf) (hi : cands[i]? = some c) :
    (labelMatrix lfs cands).1.length = cands.length ∧
    (∀ row ∈ (labelMatrix lfs cands).1, row.length = lfs.length) ∧
    (∀ e, lf.run c = .error e →
      entry? (labelMatrix lfs cands).1 i j = some 0 ∧
      (⟨c.id, lf.name, e⟩ : EvalFailure) ∈ (labelMatrix lfs cands).2) ∧
    (∀ v, lf.run c = .ok v → entry? (labelMatrix lfs cands).1 i j = some v) := by
  have hlf : lf ∈ lfs := by
    have := List.getElem?_eq_some.mp hj
    obtain ⟨hlt, hget⟩ := this
    exact hget ▸ List.getElem_mem hlt
  have hc : c ∈ cands := by
    have := List.getElem?_eq_some.mp hi
    obtain ⟨hlt, hget⟩ := this
    exact hget ▸ List.getElem_mem hlt
  refine ⟨labelMatrix_length lfs cands, labelMatrix_row_length lfs cands,
    fun e he => ⟨?_, labelMatrix_failure_mem lfs cands lf c e hlf hc he⟩,
    fun v hv => ?_⟩
  · have := labelMatrix_entry lfs cands i j lf c hj hi
    rwa [show (applyCell lf c).1 = 0 by simp [applyCell, he]] at this
  · have := labelMatrix_entry lfs cands i j lf c hj hi
    rwa [show (applyCell lf c).1 = v by simp [applyCell, hv]] at this

/-- Witness for C5: a broken LF raising on candidate 0 yields an ABSTAIN
cell and a recorded failure. -/
theorem apply_fail_soft_witness :
    entry? (labelMatrix [demoLF_broken] [candHisWife]).1 0 0 = some 0 ∧
    (⟨0, "broken", "boom"⟩ : EvalFailure) ∈
      (labelMatrix [demoLF_broken] [candHisWife]).2 :=
  (apply_fail_soft [demoLF_broken] [candHisWife] 0 0 demoLF_broken candHisWife
    rfl rfl).2.2.1 "boom" rfl

/-- The four buckets of `error_analysis` are the filters of the listed
pairs by the four vote/gold comparisons. -/
theorem error_analysis_eq_filter (lf : Candidate → Int)
    (pairs : List (Candidate × Option Int)) :
    error_analysis lf pairs =
      ((pairs.filter (fun p => lf p.1 = 1 ∧ p.2 = some 1)).map Prod.fst,
       (pairs.filter (fun p => lf p.1 = 1 ∧ p.2 = some (-1))).map Prod.fst,
       (pairs.filter (fun p => lf p.1 = -1 ∧ p.2 = some (-1))).map Prod.fst,
       (pairs.filter (fun p => lf p.1 = -1 ∧ p.2 = some 1)).map Prod.fst) := by
  induction pairs with
  | nil => rfl
  | cons p rest ih =>
    obtain ⟨c, g⟩ := p
    simp only [error_analysis, ih]
    by_cases h1 : lf c = 1 ∧ g = some 1
    · rw [if_pos h1]
      obtain ⟨hv, hg⟩ := h1
      subst hg
      simp [List.filter_cons, hv]
    · rw [if_neg h1]
      by_cases h2 : lf c = 1 ∧ g = some (-1)
      · rw [if_pos h2]
        obtain ⟨hv, hg⟩ := h2
        subst hg
        simp [List.filter_cons, hv]
      · rw [if_neg h2]
        by_cases h3 : lf c = -1 ∧ g = some (-1)
        · rw [if_pos h3]
          obtain ⟨hv, hg⟩ := h3
          subst hg
          simp [List.filter_cons, hv]
        · rw [if_neg h3]
          by_cases h4 : lf c = -1 ∧ g = some 1
          · rw [if_pos h4]
            obtain ⟨hv, hg⟩ := h4
            subst hg
            simp [List.filter_cons, hv]
          · rw [if_neg h4]
            simp [List.filter_cons, h1, h2, h3, h4]

/-- The four bucket sizes sum to at most the number of gold-covered
pairs. -/
theorem error_analysis_sum_le (lf : Candidate → Int)
    (pairs : List (Candidate × Option Int)) :
    (error_analysis lf pairs).1.length +
    (error_analysis lf pairs).2.1.length +
    (error_analysis lf pairs).2.2.1.length +
    (error_analysis lf pairs).2.2.2.length ≤
    (pairs.filter (fun p => p.2.isSome)).length := by
  induction pairs with
  | nil => simp [error_analysis]
  | cons p rest ih =>
    obtain ⟨c, g⟩ := p
    simp only [error_analysis]
    rcases hrec : error_analysis lf rest with ⟨tp, fp, tn, fn⟩
    rw [hrec] at ih
    simp only at ih
    by_cases h1 : lf c = 1 ∧ g = some 1
    · rw [if_pos h1]
      obtain ⟨hv, hg⟩ := h1
      subst hg
      simp [List.filter_cons]
      omega
    · rw [if_neg h1]
      by_cases h2 : lf c = 1 ∧ g = some (-1)
      · rw [if_pos h2]
        obtain ⟨hv, hg⟩ := h2
        subst hg
        simp [List.filter_cons]
        omega
      · rw [if_neg h2]
        by_cases h3 : lf c = -1 ∧ g = some (-1)
        · rw [if_pos h3]
          obtain ⟨hv, hg⟩ := h3
          subst hg
          simp [List.filter_cons]
          omega
        · rw [if_neg h3]
          by_cases h4 : lf c = -1 ∧ g = some 1
          · rw [if_pos h4]
            obtain ⟨hv, hg⟩ := h4
            subst hg
            simp [List.filter_cons]
            omega
          · rw [if_neg h4]
            cases g with
            | none => simpa [List.filter_cons] using ih
            | some v =>
              simp [List.filter_cons]
              omega

/-- C6.  Scorer buckets with ABSTAIN exclusion: over the pairs of
candidates and (optional) gold labels, the TP bucket collects exactly the
candidates voted `+1` with gold `+1`, FP those voted `+1` with gold `-1`,
TN those voted `-1` with gold `-1`, FN those voted `-1` with gold `+1`;
a candidate the LF abstains on lands in no bucket, and the four bucket
sizes sum to at most the number of gold-covered pairs. -/
theorem error_analysis_buckets (lf : Candidate → Int)
    (pairs : List (Candidate × Option Int)) :
    (error_analysis lf pairs).1 =
      (pairs.filter (fun p => lf p.1 = 1 ∧ p.2 = some 1)).map Prod.fst ∧
    (error_analysis lf pairs).2.1 =
      (pairs.filter (fun p => lf p.1 = 1 ∧ p.2 = some (-1))).map Prod.fst ∧
    (error_analysis lf pairs).2.2.1 =
      (pairs.filter (fun p => lf p.1 = -1 ∧ p.2 = some (-1))).map Prod.fst ∧
    (error_analysis lf pairs).2.2.2 =
      (pairs.filter (fun p => lf p.1 = -1 ∧ p.2 = some 1)).map Prod.fst ∧
    (∀ c : Candidate, lf c = 0 →
      c ∉ (error_analysis lf pairs).1 ∧ c ∉ (error_analysis lf pairs).2.1 ∧
      c ∉ (error_analysis lf pairs).2.2.1 ∧ c ∉ (error_analysis lf pairs).2.2.2) ∧
    (error_analysis lf pairs).1.length + (error_analysis lf pairs).2.1.length +
      (error_analysis lf pairs).2.2.1.length +
      (error_analysis lf pairs).2.2.2.length ≤
      (pairs.filter (fun p => p.2.isSome)).length := by
  have hf := error_analysis_eq_filter lf pairs
  refine ⟨by rw [hf], by rw [hf], by rw [hf], by rw [hf], ?_,
    error_analysis_sum_le lf pairs⟩
  intro c hc
  rw [hf]
  refine ⟨?_, ?_, ?_, ?_⟩ <;>
    · simp only [List.mem_map, List.mem_filter]
      rintro ⟨⟨c', g⟩, ⟨_, hcond⟩, rfl⟩
      simp only [decide_eq_true_eq] at hcond
      simp [hc] at hcond

/-- Witness for C6: an everywhere-abstaining LF puts the gold-covered
candidate in no bucket. -/
theorem error_analysis_buckets_witness :
    candHisWife ∉ (error_analysis (fun _ => (0 : Int)) [(candHisWife, some 1)]).1 ∧
    candHisWife ∉ (error_analysis (fun _ => (0 : Int)) [(candHisWife, some 1)]).2.1 ∧
    candHisWife ∉ (error_analysis (fun _ => (0 : Int)) [(candHisWife, some 1)]).2.2.1 ∧
    candHisWife ∉ (error_analysis (fun _ => (0 : Int)) [(candHisWife, some 1)]).2.2.2 :=
  (error_analysis_buckets (fun _ => (0 : Int))
    [(candHisWife, some 1)]).2.2.2.2.1 candHisWife rfl

/-- C8.  Undefined-metric handling: precision is `tp/(tp+fp)` and recall
`tp/(tp+fn)`, each an explicit undefined marker (`none`) exactly when its
denominator is 0, never a division error; F1 is the harmonic mean of
precision and recall and is undefined whenever either is undefined or
their sum is 0. -/
theorem scorer_undefined_metrics (tp fp fn : Nat) :
    (precisionOf tp fp = none ↔ tp + fp = 0) ∧
    (recallOf tp fn = none ↔ tp + fn = 0) ∧
    (tp + fp ≠ 0 → precisionOf tp fp = some ((tp : ℚ) / ((tp : ℚ) + (fp : ℚ)))) ∧
    (tp + fn ≠ 0 → recallOf tp fn = some ((tp : ℚ) / ((tp : ℚ) + (fn : ℚ)))) ∧
    f1Of none (recallOf tp fn) = none ∧
    f1Of (precisionOf tp fp) none = none ∧
    (∀ p r : ℚ, f1Of (some p) (some r) =
      if p + r = 0 then none else some (2 * p * r / (p + r))) := by
  refine ⟨?_, ?_, ?_, ?_, ?_, ?_, fun p r => rfl⟩
  · unfold precisionOf; split <;> simp_all
  · unfold recallOf; split <;> simp_all
  · intro h; unfold precisionOf; rw [if_neg h]
  · intro h; unfold recallOf; rw [if_neg h]
  · rfl
  · unfold f1Of; split <;> simp_all

/-- Witness for C8: concrete defined and undefined metric values. -/
theorem scorer_undefined_metrics_witness :
    precisionOf 1 1 = some ((1 : ℚ) / 2) ∧ recallOf 0 0 = none := by
  constructor
  · have h := (scorer_undefined_metrics 1 1 0).2.2.1 (by decide)
    rw [h]
    norm_num
  · exact (scorer_undefined_metrics 0 1 0).2.1.mpr rfl

/-- Successful scoped validation yields a recognized scope, a TRUE/FALSE
label, a positive effective window, a positive supplied window, and the
two-span arity whenever the scope is `between`. -/
theorem validateScoped_ok (label : Int) (search : String)
    (window : Option Int) (arity : Nat) (p : Scope × Nat)
    (h : validateScoped label search window arity = .ok p) :
    parseScope search = some p.1 ∧ (label = 1 ∨ label = -1) ∧ 1 ≤ p.2 ∧
    (p.1 = .between → arity = 2) ∧ (∀ w, window = some w → 0 < w) := by
  unfold validateScoped at h
  cases hps : parseScope search with
  | none => rw [hps] at h; exact absurd h (by simp)
  | some sc =>
    rw [hps] at h
    simp only at h
    by_cases hl : label ≠ 1 ∧ label ≠ -1
    · rw [if_pos hl] at h; exact absurd h (by simp)
    · rw [if_neg hl] at h
      have hl' : label = 1 ∨ label = -1 := by tauto
      cases window with
      | some w =>
        simp only at h
        by_cases hw : w ≤ 0
        · rw [if_pos hw] at h; exact absurd h (by simp)
        · rw [if_neg hw] at h
          by_cases hb : sc = .between ∧ arity ≠ 2
          · rw [if_pos hb] at h; exact absurd h (by simp)
          · rw [if_neg hb] at h
            simp only [Except.ok.injEq] at h
            subst h
            refine ⟨rfl, hl', by simp; omega, by tauto, ?_⟩
            intro w' hw'
            injection hw' with hw'
            omega
      | none =>
        simp only at h
        by_cases hlr : sc = .left ∨ sc = .right
        · rw [if_pos hlr] at h; exact absurd h (by simp)
        · rw [if_neg hlr] at h
          by_cases hb : sc = .between ∧ arity ≠ 2
          · rw [if_pos hb] at h; exact absurd h (by simp)
          · rw [if_neg hb] at h
            simp only [Except.ok.injEq] at h
            subst h
            exact ⟨rfl, hl', by simp, by tauto, fun w' hw' => by cases hw'⟩

/-- Successful `MatchTerms` construction implies a fully valid
configuration, and the factory keeps the supplied fields. -/
theorem mkMatchTerms_ok (name : String) (terms : List String) (label : Int)
    (search : String) (window : Option Int) (arity : Nat)
    (f : MatchTermsFactory)
    (h : mkMatchTerms name terms label search window arity = .ok f) :
    terms ≠ [] ∧ f.terms = terms ∧ f.label = label ∧
    parseScope search = some f.scope ∧ (label = 1 ∨ label = -1) ∧
    1 ≤ f.window ∧ (f.scope = .between → arity = 2) ∧
    (∀ w, window = some w → 0 < w) := by
  unfold mkMatchTerms at h
  by_cases ht : terms = []
  · rw [if_pos ht] at h; exact absurd h (by simp)
  · rw [if_neg ht] at h
    cases hv : validateScoped label search window arity with
    | error e => rw [hv] at h; exact absurd h (by simp [Except.map])
    | ok p =>
      rw [hv] at h
      simp only [Except.map, Except.ok.injEq] at h
      obtain ⟨hps, hl, hw, hb, hwin⟩ :=
        validateScoped_ok label search window arity p hv
      subst h
      exact ⟨ht, rfl, rfl, hps, hl, hw, hb, hwin⟩

/-- Successful `MatchRegex` construction implies a fully valid
configuration. -/
theorem mkMatchRegex_ok (name : String) (rgxs : List String) (label : Int)
    (search : String) (window : Option Int) (arity : Nat)
    (f : MatchRegexFactory)
    (h : mkMatchRegex name rgxs label search window arity = .ok f) :
    rgxs ≠ [] ∧ parseScope search = some f.scope ∧
    (label = 1 ∨ label = -1) ∧ 1 ≤ f.window ∧
    (f.scope = .between → arity = 2) ∧ (∀ w, window = some w → 0 < w) := by
  unfold mkMatchRegex at h
  by_cases ht : rgxs = []
  · rw [if_pos ht] at h; exact absurd h (by simp)
  · rw [if_neg ht] at h
    cases hv : validateScoped label search window arity with
    | error e => rw [hv] at h; exact absurd h (by simp [Except.map])
    | ok p =>
      rw [hv] at h
      simp only [Except.map, Except.ok.injEq] at h
      obtain ⟨hps, hl, hw, hb, hwin⟩ :=
        validateScoped_ok label search window arity p hv
      subst h
      exact ⟨ht, hps, hl, hw, hb, hwin⟩

/-- A validated term-matcher factory never abstains on every candidate:
some candidate puts a term in its scope and receives the non-zero label. -/
theorem matchTerms_lf_fires (f : MatchTermsFactory)
    (hterms : f.terms ≠ []) (hlabel : f.label = 1 ∨ f.label = -1)
    (hw : 1 ≤ f.window) : ∃ c, f.lf c ≠ 0 := by
  obtain ⟨t, ts, hts⟩ := List.exists_cons_of_ne_nil hterms
  have hmem : t ∈ f.terms := by rw [hts]; exact List.mem_cons_self t ts
  have hlab0 : f.label ≠ 0 := by
    rcases hlabel with h | h <;> rw [h] <;> decide
  cases hs : f.scope
  case left =>
    refine ⟨⟨0, [t], (1, 1), (1, 1), "", ""⟩, ?_⟩
    simp [MatchTermsFactory.lf, matchTermsLF, extractScope, hs, leftTokens,
      Nat.sub_eq_zero_of_le hw, hmem, hlab0]
  case right =>
    refine ⟨⟨0, [t], (0, 0), (0, 0), "", ""⟩, ?_⟩
    simp [MatchTermsFactory.lf, matchTermsLF, extractScope, hs, rightTokens,
      List.take_of_length_le (by simp; omega : ([t] : List String).length ≤ f.window),
      hmem, hlab0]
  case between =>
    refine ⟨⟨0, ["", t, ""], (0, 1), (2, 3), "", ""⟩, ?_⟩
    simp [MatchTermsFactory.lf, matchTermsLF, extractScope, hs, betweenTokens,
      tokenSlice, hmem, hlab0]
  case sentence =>
    refine ⟨⟨0, [t], (0, 0), (0, 0), "", ""⟩, ?_⟩
    simp [MatchTermsFactory.lf, matchTermsLF, extractScope, hs, hmem, hlab0]

/-- C7.  Fail-fast factory construction: an unsupported `search`, an
empty term/pattern/knowledge-base set, a `window` of 0 or negative, a
label other than TRUE/FALSE, or a `between` scope over a candidate type
without exactly two spans makes `MatchTerms`/`MatchRegex`/
`DistantSupervision` construction return a `ConfigurationError`; a
successful construction implies every parameter was valid, and a
successfully built term or knowledge-base matcher does not silently
abstain on every candidate. -/
theorem factory_fail_fast (name : String) (terms rgxs : List String)
    (label : Int) (search : String) (window : Option Int) (arity : Nat)
    (kb : List (String × String)) (sym : Bool) :
    ((parseScope search = none ∨ terms = [] ∨
        (∃ w, window = some w ∧ w ≤ 0) ∨ (label ≠ 1 ∧ label ≠ -1) ∨
        (search = "between" ∧ arity ≠ 2)) →
      ∃ e, mkMatchTerms name terms label search window arity = .error e) ∧
    ((parseScope search = none ∨ rgxs = [] ∨
        (∃ w, window = some w ∧ w ≤ 0) ∨ (label ≠ 1 ∧ label ≠ -1) ∨
        (search = "between" ∧ arity ≠ 2)) →
      ∃ e, mkMatchRegex name rgxs label search window arity = .error e) ∧
    (kb = [] → ∃ e, mkDistantSupervision name kb sym = .error e) ∧
    (∀ f, mkMatchTerms name terms label search window arity = .ok f →
      terms ≠ [] ∧ (f.label = 1 ∨ f.label = -1) ∧ 1 ≤ f.window ∧
      (f.scope = .between → arity = 2) ∧ ∃ c, f.lf c ≠ 0) ∧
    (∀ f, mkDistantSupervision name kb sym = .ok f →
      kb ≠ [] ∧ ∃ c, f.lf c ≠ 0) := by
  refine ⟨?_, ?_, ?_, ?_, ?_⟩
  · intro hbad
    cases hm : mkMatchTerms name terms label search window arity with
    | error e => exact ⟨e, rfl⟩
    | ok f =>
      exfalso
      obtain ⟨ht, hft, hfl, hps, hl, hw, hb, hwin⟩ :=
        mkMatchTerms_ok name terms label search window arity f hm
      rcases hbad with h | h | ⟨w, hw', hle⟩ | h | ⟨hse, har⟩
      · rw [h] at hps; cases hps
      · exact ht h
      · exact absurd (hwin w hw') (by omega)
      · tauto
      · rw [hse] at hps
        have : f.scope = Scope.between := by
          have : (some Scope.between : Option Scope) = some f.scope := hps
          injection this with h'
          exact h'.symm
        exact har (hb this)
  · intro hbad
    cases hm : mkMatchRegex name rgxs label search window arity with
    | error e => exact ⟨e, rfl⟩
    | ok f =>
      exfalso
      obtain ⟨ht, hps, hl, hw, hb, hwin⟩ :=
        mkMatchRegex_ok name rgxs label search window arity f hm
      rcases hbad with h | h | ⟨w, hw', hle⟩ | h | ⟨hse, har⟩
      · rw [h] at hps; cases hps
      · exact ht h
      · exact absurd (hwin w hw') (by omega)
      · tauto
      · rw [hse] at hps
        have : f.scope = Scope.between := by
          have : (some Scope.between : Option Scope) = some f.scope := hps
          injection this with h'
          exact h'.symm
        exact har (hb this)
  · intro hkb
    subst hkb
    exact ⟨.emptySet, rfl⟩
  · intro f hm
    obtain ⟨ht, hft, hfl, hps, hl, hw, hb, hwin⟩ :=
      mkMatchTerms_ok name terms label search window arity f hm
    refine ⟨ht, by rw [hfl]; exact hl, hw, hb, ?_⟩
    exact matchTerms_lf_fires f (hft ▸ ht) (by rw [hfl]; exact hl) hw
  · intro f hm
    unfold mkDistantSupervision at hm
    by_cases hkb : kb = []
    · rw [if_pos hkb] at hm; cases hm
    · rw [if_neg hkb] at hm
      simp only [Except.ok.injEq] at hm
      subst hm
      refine ⟨hkb, ⟨0, [], (0, 0), (0, 0), kb.head hkb |>.1, (kb.head hkb).2⟩, ?_⟩
      have hmem : (( kb.head hkb).1, (kb.head hkb).2) ∈ kb := by
        rw [Prod.mk.eta]
        exact List.head_mem hkb
      simp [DistantSupervisionFactory.lf, dsLF, hmem]

/-- Witness for C7: an unsupported `search` value and an empty knowledge
base each raise at construction time. -/
theorem factory_fail_fast_witness :
    (∃ e, mkMatchTerms "t" ["x"] 1 "inside" none 2 = .error e) ∧
    (∃ e, mkDistantSupervision "t" ([] : List (String × String)) true =
      .error e) :=
  ⟨(factory_fail_fast "t" ["x"] ["r"] 1 "inside" none 2 [] true).1
      (Or.inl (by decide)),
   (factory_fail_fast "t" ["x"] ["r"] 1 "inside" none 2 [] true).2.2.1 rfl⟩

end Snorkel
